import Mathlib

/-!
Shallow embedding of the go-stash in-memory TTL cache
(`cache.go`, `cache_impl.go`, `cache_worker.go`).

Modelling choices:
* Wall-clock instants (`time.Time`) are integers; `time.Now()` becomes an
  explicit `now : Int` argument threaded into each operation that reads the
  clock in the source.
* The Go zero `time.Time` sentinel (`expiration.IsZero()`) is modelled by
  `Option Int`: `none` is the zero sentinel (never expires), `some e` a set
  absolute expiration instant.  `t.After(u)` is the strict comparison `u < t`.
* The Go map `map[string]cachedItem` is modelled by an association list
  `List (String × cachedItem α)`; Go map assignment replaces the binding in
  place (`mapInsert`), Go `delete` removes the binding, Go lookup is
  `List.lookup`.
* The payload type `any` is a type parameter `α`; the Go `nil` returned by a
  failed `Get` is `Option.none`.
* Mutation of the receiver becomes explicit state passing: each operation
  returns the resulting store.
-/

namespace GoStash

variable {α β : Type}

/-- `cachedItem` from `cache_impl.go`: a stored value together with its
optional absolute expiration instant (`none` = Go zero-`time.Time`,
meaning no expiration). -/
structure cachedItem (α : Type) where
  value : α
  expiration : Option Int
deriving DecidableEq

/-- `cachedItem.isExpired` from `cache_impl.go`: false when the expiration
is the zero sentinel; otherwise expired exactly when `now` is strictly
after the expiration (`time.Now().After(ci.expiration)`). -/
def isExpired (now : Int) (ci : cachedItem α) : Bool :=
  match ci.expiration with
  | none => false
  | some e => decide (e < now)

/-- `inMemoryCache` from `cache_impl.go`: the map of keys to cached items
(the `sync.RWMutex` has no sequential content and is not modelled). -/
structure inMemoryCache (α : Type) where
  items : List (String × cachedItem α)
deriving DecidableEq

/-- Go map assignment `m[key] = v`: replace the existing binding for `key`
in place, or append a new binding when absent. -/
def mapInsert (l : List (String × cachedItem α)) (k : String)
    (v : cachedItem α) : List (String × cachedItem α) :=
  match l with
  | [] => [(k, v)]
  | p :: rest => if p.1 = k then (k, v) :: rest else p :: mapInsert rest k v

/-- `inMemoryCache.SetWithTTL` from `cache_impl.go`: store the value under
the key; when `ttl > 0` the expiration is `now + ttl`, otherwise the zero
sentinel (no expiration). -/
def SetWithTTL (c : inMemoryCache α) (key : String) (value : α)
    (ttl now : Int) : inMemoryCache α :=
  let expiration : Option Int := if 0 < ttl then some (now + ttl) else none
  { items := mapInsert c.items key ⟨value, expiration⟩ }

/-- `inMemoryCache.Set` from `cache_impl.go`: delegates to `SetWithTTL`
with a zero TTL. -/
def Set (c : inMemoryCache α) (key : String) (value : α)
    (now : Int) : inMemoryCache α :=
  SetWithTTL c key value 0 now

/-- `inMemoryCache.Delete` from `cache_impl.go`: Go `delete(c.items, key)`
removes the binding for the key, a no-op when absent. -/
def Delete (c : inMemoryCache α) (key : String) : inMemoryCache α :=
  { items := c.items.filter (fun p => decide (p.1 ≠ key)) }

/-- `inMemoryCache.Get` from `cache_impl.go`: look the key up; absent keys
give `(nil, false)`; an expired item is deleted and `(nil, false)` is
returned; otherwise the value with `true`.  The returned pair is the Go
return value, the second component the store after the call. -/
def Get (c : inMemoryCache α) (key : String) (now : Int) :
    (Option α × Bool) × inMemoryCache α :=
  match c.items.lookup key with
  | none => ((none, false), c)
  | some item =>
    if isExpired now item then ((none, false), Delete c key)
    else ((some item.value, true), c)

/-- `inMemoryCache.Clear` from `cache_impl.go`: replace the map with a
fresh empty one. -/
def Clear (_c : inMemoryCache α) : inMemoryCache α :=
  { items := [] }

/-- `cleanupCache` from `cache_worker.go`, applied to the concrete
`*inMemoryCache`: one sweep pass at the captured instant `now` deletes
every item with `!item.expiration.IsZero() && now.After(item.expiration)`
and keeps everything else. -/
def cleanupCache (c : inMemoryCache α) (now : Int) : inMemoryCache α :=
  { items := c.items.filter (fun p =>
      match p.2.expiration with
      | none => true
      | some e => !decide (e < now)) }

/-- The dynamic type of a value of interface type `Cache` as seen by the
sweeper: either the concrete `*inMemoryCache`, or any other implementation
(an opaque payload of type `β`). -/
inductive CacheDyn (α β : Type) where
  | mem : inMemoryCache α → CacheDyn α β
  | other : β → CacheDyn α β
deriving DecidableEq

/-- `cleanupCache` from `cache_worker.go` at the interface level: the type
assertion `cache.(*inMemoryCache)` succeeds only on the concrete
representation; any other representation is logged and skipped, leaving
the cache untouched. -/
def cleanupCacheDyn : CacheDyn α β → Int → CacheDyn α β
  | CacheDyn.mem c, now => CacheDyn.mem (cleanupCache c now)
  | CacheDyn.other b, _ => CacheDyn.other b

/-! ### Helper lemmas -/

/-- After a Go map assignment the key is bound to the new item. -/
lemma lookup_mapInsert_self (l : List (String × cachedItem α)) (k : String)
    (v : cachedItem α) : (mapInsert l k v).lookup k = some v := by
  induction l with
  | nil => simp [mapInsert, List.lookup]
  | cons p rest ih =>
    by_cases h : p.1 = k
    · simp [mapInsert, h, List.lookup]
    · have hb : (k == p.1) = false := by
        simp [beq_eq_false_iff_ne]
        exact fun he => h he.symm
      simp [mapInsert, h, List.lookup, hb, ih]

/-- After deleting a key, looking it up fails. -/
lemma lookup_filter_ne_self (l : List (String × cachedItem α)) (k : String) :
    (l.filter (fun p => decide (p.1 ≠ k))).lookup k = none := by
  simp
  exact fun a b _ hak hka => hak hka.symm

/-- Every key bound in a map on which lookup fails differs from the looked-up
key. -/
lemma key_ne_of_lookup_none (l : List (String × cachedItem α)) (k : String)
    (h : l.lookup k = none) : ∀ q ∈ l, q.1 ≠ k := by
  induction l with
  | nil => intro q hq; cases hq
  | cons p rest ih =>
    obtain ⟨a, b⟩ := p
    rw [List.lookup_cons] at h
    by_cases hk : k = a
    · simp [hk] at h
    · have hb : (k == a) = false := by simp [hk]
      rw [hb] at h
      simp only [cond_false] at h
      intro q hq
      rcases List.mem_cons.mp hq with hq1 | hq2
      · subst hq1; exact fun he => hk he.symm
      · exact ih h q hq2

/-- Deleting a key absent from the map leaves the map unchanged. -/
lemma filter_ne_of_lookup_none (l : List (String × cachedItem α)) (k : String)
    (h : l.lookup k = none) : l.filter (fun p => decide (p.1 ≠ k)) = l := by
  refine List.filter_eq_self.mpr ?_
  intro q hq
  exact decide_eq_true (key_ne_of_lookup_none l k h q hq)

/-- Filtering twice with the same predicate is the same as filtering once. -/
lemma filter_idem (p : String × cachedItem α → Bool)
    (l : List (String × cachedItem α)) : (l.filter p).filter p = l.filter p := by
  induction l with
  | nil => rfl
  | cons a rest ih =>
    by_cases h : p a = true
    · simp [List.filter_cons, h, ih]
    · simp only [Bool.not_eq_true] at h
      simp [List.filter_cons, h, ih]

/-- The sweeper's keep condition is the negation of `isExpired`: the source
re-states `!item.expiration.IsZero() && now.After(item.expiration)` inline. -/
lemma sweepKeep_eq_not_isExpired (now : Int) (item : cachedItem α) :
    (match item.expiration with
     | none => true
     | some e => !decide (e < now)) = !(isExpired now item) := by
  cases h : item.expiration <;> simp [isExpired, h]

/-! ### Claim theorems -/

/-- C3: an item whose expiration is the zero sentinel is never expired; an
item with a set expiration is expired exactly when the current time is
strictly after it; an item whose expiration equals the current time is not
yet expired. -/
theorem isExpired_characterization (now e : Int) (v : α) :
    isExpired now (⟨v, none⟩ : cachedItem α) = false
    ∧ (isExpired now (⟨v, some e⟩ : cachedItem α) = true ↔ e < now)
    ∧ isExpired now (⟨v, some now⟩ : cachedItem α) = false := by
  refine ⟨rfl, ?_, ?_⟩
  · simp [isExpired]
  · simp [isExpired]

/-- C2: `Get` reports `found = true` exactly when the key is bound to an
unexpired item, in which case it returns that item's value; otherwise it
returns the absent value `none` with `found = false`; and when the key is
bound to an expired item, the key is unbound in the store `Get` returns. -/
theorem get_characterization (c : inMemoryCache α) (k : String) (now : Int) :
    (Get c k now).1.2 =
      (match c.items.lookup k with
       | none => false
       | some item => !(isExpired now item))
    ∧ (Get c k now).1.1 =
      (match c.items.lookup k with
       | none => none
       | some item => if isExpired now item then none else some item.value)
    ∧ (Get c k now).2.items.lookup k =
      (match c.items.lookup k with
       | none => none
       | some item => if isExpired now item then none else some item) := by
  unfold Get
  cases h : c.items.lookup k with
  | none =>
    simp
    exact fun a b hm hk => key_ne_of_lookup_none c.items k h (a, b) hm hk.symm
  | some item =>
    by_cases he : isExpired now item
    · simp [he, Delete]
      exact fun a b _ hak hka => hak hka.symm
    · simp [he, h]

/-- C1 counterexample: an entry whose expiration is set and is `at` the
current time (`expiresAt = now = 5`) is NOT removed by the sweep pass,
because the source deletes only on the strict `now.After(expiration)`;
the claim's `at or before the current time` fails at this boundary. -/
theorem sweep_boundary_entry_survives :
    ((("a" : String), (⟨0, some 5⟩ : cachedItem Nat)) ∈
      (cleanupCache (⟨[(("a" : String), ⟨0, some 5⟩)]⟩ : inMemoryCache Nat) 5).items)
    ∧ ((5 : Int) ≤ (5 : Int)) ∧ (some (5 : Int) ≠ (none : Option Int)) := by
  decide

/-- C1 (amended): one sweep pass removes every entry whose expiration is
set and is strictly before the captured current time (equivalently, every
entry that `isExpired` deems expired at that time); no such entry remains
in the map after the pass. -/
theorem sweep_removes_strictly_expired (c : inMemoryCache α) (now : Int)
    (k : String) (item : cachedItem α) (h : isExpired now item = true) :
    (k, item) ∉ (cleanupCache c now).items := by
  intro hmem
  have hkeep := (List.mem_filter.mp hmem).2
  simp only [sweepKeep_eq_not_isExpired] at hkeep
  rw [h] at hkeep
  simp at hkeep

/-- Witness for C1 (amended): a concrete strictly expired entry
(`expiresAt = 3 < now = 5`) is gone after the sweep. -/
theorem sweep_removes_strictly_expired_witness :
    ((("a" : String), (⟨0, some 3⟩ : cachedItem Nat)) ∉
      (cleanupCache (⟨[(("a" : String), ⟨0, some 3⟩)]⟩ : inMemoryCache Nat) 5).items) :=
  sweep_removes_strictly_expired
    (⟨[(("a" : String), ⟨0, some 3⟩)]⟩ : inMemoryCache Nat) 5
    (("a" : String)) (⟨0, some 3⟩ : cachedItem Nat) (by decide)

/-- C4: after `SetWithTTL k v ttl` at time `now` with `ttl > 0` and no
intervening operation on `k`, `Get k` returns `(v, true)` at any time
strictly before `now + ttl` and `(_, false)` at any time strictly after
`now + ttl`. -/
theorem setWithTTL_get_before_after (c : inMemoryCache α) (k : String)
    (v : α) (ttl now t1 t2 : Int) (httl : 0 < ttl)
    (h1 : t1 < now + ttl) (h2 : now + ttl < t2) :
    (Get (SetWithTTL c k v ttl now) k t1).1 = (some v, true)
    ∧ (Get (SetWithTTL c k v ttl now) k t2).1 = (none, false) := by
  have hl : (SetWithTTL c k v ttl now).items.lookup k
      = some ⟨v, some (now + ttl)⟩ := by
    simp [SetWithTTL, if_pos httl, lookup_mapInsert_self]
  constructor
  · simp [Get, hl, isExpired, not_lt.mpr (le_of_lt h1)]
  · simp [Get, hl, isExpired, h2]

/-- Witness for C4 at `ttl = 10`, `now = 0`, read times `5` and `15`. -/
theorem setWithTTL_get_before_after_witness :
    (Get (SetWithTTL (⟨[]⟩ : inMemoryCache Nat) (("a" : String)) 7 10 0)
        (("a" : String)) 5).1 = (some 7, true)
    ∧ (Get (SetWithTTL (⟨[]⟩ : inMemoryCache Nat) (("a" : String)) 7 10 0)
        (("a" : String)) 15).1 = (none, false) :=
  setWithTTL_get_before_after (⟨[]⟩ : inMemoryCache Nat) (("a" : String))
    7 10 0 5 15 (by decide) (by decide) (by decide)

/-- C5: `SetWithTTL` on any prior state binds the key to exactly the new
value and the new expiration (full replacement, no merging); in particular
`Set k v1` followed by `SetWithTTL k v2 ttl` with `ttl > 0` gives
`Get k = (v2, true)` before expiry. -/
theorem set_overwrite_replaces (c c2 : inMemoryCache α) (k k2 : String)
    (v v1 v2 : α) (ttl ttl2 now now1 now2 t : Int)
    (hpos : 0 < ttl2) (ht : t ≤ now2 + ttl2) :
    (SetWithTTL c k v ttl now).items.lookup k
      = some ⟨v, if 0 < ttl then some (now + ttl) else none⟩
    ∧ (Get (SetWithTTL (Set c2 k2 v1 now1) k2 v2 ttl2 now2) k2 t).1
      = (some v2, true) := by
  constructor
  · simp [SetWithTTL, lookup_mapInsert_self]
  · have hl : (SetWithTTL (Set c2 k2 v1 now1) k2 v2 ttl2 now2).items.lookup k2
        = some ⟨v2, some (now2 + ttl2)⟩ := by
      simp [SetWithTTL, if_pos hpos, lookup_mapInsert_self]
    simp [Get, hl, isExpired, not_lt.mpr ht]

/-- Witness for C5: overwrite `(v1 = 1)` with `(v2 = 2, ttl = 10)` at
`now = 0` and read back at `t = 5`. -/
theorem set_overwrite_replaces_witness :
    (SetWithTTL (⟨[]⟩ : inMemoryCache Nat) (("b" : String)) 9 0 0).items.lookup
        (("b" : String))
      = some ⟨9, if (0 : Int) < 0 then some (0 + 0) else none⟩
    ∧ (Get (SetWithTTL (Set (⟨[]⟩ : inMemoryCache Nat) (("a" : String)) 1 0)
        (("a" : String)) 2 10 0) (("a" : String)) 5).1 = (some 2, true) :=
  set_overwrite_replaces (⟨[]⟩ : inMemoryCache Nat) (⟨[]⟩ : inMemoryCache Nat)
    (("b" : String)) (("a" : String)) 9 1 2 0 10 0 0 0 5
    (by decide) (by decide)

/-- C6: `SetWithTTL` with a non-positive TTL produces exactly the state
`Set` produces: the key is bound to the value with the zero-sentinel
expiration, which is never expired. -/
theorem setWithTTL_nonpositive_eq_set (c : inMemoryCache α) (k : String)
    (v : α) (ttl now t : Int) (h : ttl ≤ 0) :
    SetWithTTL c k v ttl now = Set c k v now
    ∧ (SetWithTTL c k v ttl now).items.lookup k = some ⟨v, none⟩
    ∧ isExpired t (⟨v, none⟩ : cachedItem α) = false := by
  have hn : ¬ (0 : Int) < ttl := not_lt.mpr h
  refine ⟨?_, ?_, rfl⟩
  · simp [SetWithTTL, Set, hn]
  · simp [SetWithTTL, hn, lookup_mapInsert_self]

/-- Witness for C6 at `ttl = -3`. -/
theorem setWithTTL_nonpositive_eq_set_witness :
    SetWithTTL (⟨[]⟩ : inMemoryCache Nat) (("a" : String)) 7 (-3) 0
      = Set (⟨[]⟩ : inMemoryCache Nat) (("a" : String)) 7 0
    ∧ (SetWithTTL (⟨[]⟩ : inMemoryCache Nat) (("a" : String)) 7 (-3) 0).items.lookup
        (("a" : String)) = some ⟨7, none⟩
    ∧ isExpired 100 (⟨7, none⟩ : cachedItem Nat) = false :=
  setWithTTL_nonpositive_eq_set (⟨[]⟩ : inMemoryCache Nat) (("a" : String))
    7 (-3) 0 100 (by decide)

/-- C7: `Delete` is idempotent — deleting the same key twice yields the
state of deleting it once — and `Delete` of a key absent from the map is a
no-op returning the unchanged store. -/
theorem delete_idempotent_noop (c c2 : inMemoryCache α) (k k2 : String)
    (h : c2.items.lookup k2 = none) :
    Delete (Delete c k) k = Delete c k ∧ Delete c2 k2 = c2 := by
  constructor
  · exact congrArg inMemoryCache.mk
      (filter_idem (fun p => decide (p.1 ≠ k)) c.items)
  · have he := filter_ne_of_lookup_none c2.items k2 h
    exact congrArg inMemoryCache.mk he

/-- Witness for C7: double delete of a present key, and delete of an
absent key on a nonempty store. -/
theorem delete_idempotent_noop_witness :
    Delete (Delete (⟨[(("a" : String), ⟨(7 : Nat), none⟩)]⟩) (("a" : String)))
        (("a" : String))
      = Delete (⟨[(("a" : String), ⟨(7 : Nat), none⟩)]⟩) (("a" : String))
    ∧ Delete (⟨[(("a" : String), ⟨(7 : Nat), none⟩)]⟩ : inMemoryCache Nat)
        (("b" : String))
      = (⟨[(("a" : String), ⟨(7 : Nat), none⟩)]⟩ : inMemoryCache Nat) :=
  delete_idempotent_noop
    (⟨[(("a" : String), ⟨(7 : Nat), none⟩)]⟩ : inMemoryCache Nat)
    (⟨[(("a" : String), ⟨(7 : Nat), none⟩)]⟩ : inMemoryCache Nat)
    (("a" : String)) (("b" : String)) (by decide)

/-- C8: a sweep cycle applied to a cache whose dynamic representation is
not the concrete `*inMemoryCache` returns normally (the function is total)
and leaves the cache unchanged: the type assertion fails and cleanup is
silently skipped. -/
theorem cleanup_skips_other_representation (b : β) (now : Int) :
    cleanupCacheDyn (CacheDyn.other b : CacheDyn α β) now
      = CacheDyn.other b :=
  rfl

end GoStash
